import Mathlib

/-!
Verification of the odin-secure-comm gateway core: a shallow embedding of
`src/libs/odin/crypto.py`, `src/services/gateway/hel.py`,
`src/services/gateway/envelope.py`, `src/services/gateway/storage/in_memory.py`
and the route handlers of `src/services/gateway/app.py`, together with proofs
of the spec claims about them.

Modelling conventions:
* Python `bytes` are `List Nat` with each element `< 256` where it matters.
* Machine words in SHA-256 are `Nat` reduced modulo `2 ^ 32` explicitly.
* Python exceptions become `Except` errors; a caught exception is a normal
  return, an uncaught one is an `Except.error` that propagates.
* JSON documents are modelled at the level of their abstract syntax tree
  (`Json` below); `json.dumps` followed by `json.loads` is the identity on
  that tree, so storage holds `Json` values where the code holds dumped bytes.
* Wall-clock readings (`time.time() * 1000`) enter handlers as an explicit
  millisecond parameter; formatted timestamps enter as an explicit string.
-/

namespace Odin

/-- Python `bytes` values: lists of byte-sized naturals. -/
abbrev Bytes := List Nat

/-- Well-formed byte strings: every element is a byte. -/
def BytesWF (bs : Bytes) : Prop := ∀ b ∈ bs, b < 256

instance : DecidablePred BytesWF := fun bs =>
  inferInstanceAs (Decidable (∀ b ∈ bs, b < 256))

/-- UTF-8 encoding of one character (the standard 1-4 byte encoding used by
Python `str.encode("utf-8")`). -/
def utf8Char (c : Char) : Bytes :=
  let n := c.toNat
  if n < 0x80 then [n]
  else if n < 0x800 then [0xC0 + n / 64, 0x80 + n % 64]
  else if n < 0x10000 then [0xE0 + n / 4096, 0x80 + n / 64 % 64, 0x80 + n % 64]
  else [0xF0 + n / 262144, 0x80 + n / 4096 % 64, 0x80 + n / 64 % 64, 0x80 + n % 64]

/-- UTF-8 encoding of a string, as Python `s.encode("utf-8")`. -/
def utf8Bytes (s : String) : Bytes :=
  s.data.flatMap utf8Char

/-! ### base64url (crypto.py: `b64url_no_pad`, `b64url_to_bytes`) -/

/-- The URL-safe base64 alphabet used by `base64.urlsafe_b64encode`. -/
def b64Alphabet : List Char :=
  "ABCDEFGHIJKLMNOPQRSTUVWXYZabcdefghijklmnopqrstuvwxyz0123456789-_".data

/-- Character for a 6-bit group.  The default is never hit on byte input. -/
def sextetChar (n : Nat) : Char := b64Alphabet.getD n '?'

/-- `base64.urlsafe_b64encode`: 3-byte groups to 4 characters, with `=`
padding for a trailing 1- or 2-byte group. -/
def b64encodePadded : Bytes → List Char
  | a :: b :: c :: rest =>
      sextetChar (a / 4) :: sextetChar (a % 4 * 16 + b / 16) ::
      sextetChar (b % 16 * 4 + c / 64) :: sextetChar (c % 64) :: b64encodePadded rest
  | [a, b] => [sextetChar (a / 4), sextetChar (a % 4 * 16 + b / 16), sextetChar (b % 16 * 4), '=']
  | [a] => [sextetChar (a / 4), sextetChar (a % 4 * 16), '=', '=']
  | [] => []

/-- `bytes.rstrip(b"=")`: remove every trailing `=`. -/
def rstripEq : List Char → List Char
  | [] => []
  | c :: cs =>
    match rstripEq cs with
    | [] => if c = '=' then [] else [c]
    | r => c :: r

/-- `crypto.b64url_no_pad`: padded URL-safe base64, then strip the `=`s. -/
def b64url_no_pad (bs : Bytes) : String :=
  ⟨rstripEq (b64encodePadded bs)⟩

/-- The spec's wording of the encoding: unpadded URL-safe base64, emitting
only data characters and no `=` at all. -/
def b64urlSpecChars : Bytes → List Char
  | a :: b :: c :: rest =>
      sextetChar (a / 4) :: sextetChar (a % 4 * 16 + b / 16) ::
      sextetChar (b % 16 * 4 + c / 64) :: sextetChar (c % 64) :: b64urlSpecChars rest
  | [a, b] => [sextetChar (a / 4), sextetChar (a % 4 * 16 + b / 16), sextetChar (b % 16 * 4)]
  | [a] => [sextetChar (a / 4), sextetChar (a % 4 * 16)]
  | [] => []

/-- Inverse of the alphabet: the 6-bit value of a base64url character. -/
def sextetVal (c : Char) : Option Nat := b64Alphabet.indexOf? c

/-- Decoding of padded URL-safe base64, 4 characters at a time, mirroring
`base64.urlsafe_b64decode` on well-formed input: `=` is only accepted as
final padding.  (Python additionally discards foreign characters before
decoding; inputs produced by the encoder never contain any, and that lenient
path is not modelled.) -/
def b64decodePadded : List Char → Option Bytes
  | [] => some []
  | c1 :: c2 :: c3 :: c4 :: rest =>
      if c3 = '=' then
        if c4 = '=' ∧ rest = [] then do
          let s1 ← sextetVal c1
          let s2 ← sextetVal c2
          pure [s1 * 4 + s2 / 16]
        else none
      else if c4 = '=' then
        if rest = [] then do
          let s1 ← sextetVal c1
          let s2 ← sextetVal c2
          let s3 ← sextetVal c3
          pure [s1 * 4 + s2 / 16, s2 % 16 * 16 + s3 / 4]
        else none
      else do
        let s1 ← sextetVal c1
        let s2 ← sextetVal c2
        let s3 ← sextetVal c3
        let s4 ← sextetVal c4
        let bs ← b64decodePadded rest
        pure ([s1 * 4 + s2 / 16, s2 % 16 * 16 + s3 / 4, s3 % 4 * 64 + s4] ++ bs)
  | _ => none

/-- `crypto.b64url_to_bytes`: re-pad to a multiple of four characters, then
decode; `none` models the `binascii.Error` raised on malformed input. -/
def b64url_to_bytes (s : String) : Option Bytes :=
  b64decodePadded (s.data ++ List.replicate ((4 - s.length % 4) % 4) '=')

/-! ### SHA-256 (`hashlib.sha256`) and `crypto.cid_v0` -/

/-- Rotate a 32-bit word right by `n` bits. -/
def ror32 (x n : Nat) : Nat := (x >>> n ||| x <<< (32 - n)) % 2 ^ 32

/-- The 64 SHA-256 round constants (FIPS 180-4, in decimal). -/
def shaK : List Nat :=
  [1116352408, 1899447441, 3049323471, 3921009573, 961987163,
   1508970993, 2453635748, 2870763221, 3624381080, 310598401,
   607225278, 1426881987, 1925078388, 2162078206, 2614888103,
   3248222580, 3835390401, 4022224774, 264347078, 604807628,
   770255983, 1249150122, 1555081692, 1996064986, 2554220882,
   2821834349, 2952996808, 3210313671, 3336571891, 3584528711,
   113926993, 338241895, 666307205, 773529912, 1294757372,
   1396182291, 1695183700, 1986661051, 2177026350, 2456956037,
   2730485921, 2820302411, 3259730800, 3345764771, 3516065817,
   3600352804, 4094571909, 275423344, 430227734, 506948616,
   659060556, 883997877, 958139571, 1322822218, 1537002063,
   1747873779, 1955562222, 2024104815, 2227730452, 2361852424,
   2428436474, 2756734187, 3204031479, 3329325298]

/-- The SHA-256 initial hash state (FIPS 180-4, in decimal). -/
def shaInit : List Nat :=
  [1779033703, 3144134277, 1013904242, 2773480762,
   1359893119, 2600822924, 528734635, 1541459225]

/-- A natural as `w` big-endian bytes, most significant first. -/
def beBytes (w n : Nat) : Bytes :=
  (List.range w).map (fun i => n >>> (8 * (w - 1 - i)) % 256)

/-- SHA-256 message padding: `0x80`, zeros to 56 mod 64, 8-byte bit length. -/
def shaPad (msg : Bytes) : Bytes :=
  msg ++ [0x80] ++ List.replicate ((119 - msg.length % 64) % 64) 0
      ++ beBytes 8 (8 * msg.length)

/-- Big-endian 32-bit words from bytes, 4 at a time. -/
def bytesToWords : Bytes → List Nat
  | b0 :: b1 :: b2 :: b3 :: rest =>
      (b0 <<< 24 + b1 <<< 16 + b2 <<< 8 + b3) :: bytesToWords rest
  | _ => []

/-- Extend 16 message-schedule words to 64. -/
def shaExtend (w : List Nat) : Nat → List Nat
  | 0 => w
  | n + 1 =>
      let i := w.length
      let w15 := w.getD (i - 15) 0
      let w2 := w.getD (i - 2) 0
      let s0 := ror32 w15 7 ^^^ ror32 w15 18 ^^^ w15 >>> 3
      let s1 := ror32 w2 17 ^^^ ror32 w2 19 ^^^ w2 >>> 10
      shaExtend (w ++ [(w.getD (i - 16) 0 + s0 + w.getD (i - 7) 0 + s1) % 2 ^ 32]) n

/-- One SHA-256 compression round; the state is the `[a,...,h]` list. -/
def shaRound (st : List Nat) (kw : Nat × Nat) : List Nat :=
  match st with
  | [a, b, c, d, e, f, g, h] =>
      let s1 := ror32 e 6 ^^^ ror32 e 11 ^^^ ror32 e 25
      let ch := e &&& f ^^^ ((2 ^ 32 - 1 - e) &&& g)
      let t1 := (h + s1 + ch + kw.1 + kw.2) % 2 ^ 32
      let s0 := ror32 a 2 ^^^ ror32 a 13 ^^^ ror32 a 22
      let mj := a &&& b ^^^ (a &&& c) ^^^ (b &&& c)
      let t2 := (s0 + mj) % 2 ^ 32
      [(t1 + t2) % 2 ^ 32, a, b, c, (d + t1) % 2 ^ 32, e, f, g]
  | st => st

/-- Compress one 64-byte block into the hash state. -/
def shaBlock (hs : List Nat) (block : Bytes) : List Nat :=
  let w := shaExtend (bytesToWords block) 48
  let out := (shaK.zip w).foldl shaRound hs
  (hs.zip out).map (fun p => (p.1 + p.2) % 2 ^ 32)

/-- Fold the compression over the given number of leading 64-byte blocks. -/
def shaBlocksGo (hs : List Nat) (padded : Bytes) : Nat → List Nat
  | 0 => hs
  | n + 1 => shaBlocksGo (shaBlock hs (padded.take 64)) (padded.drop 64) n

/-- Fold the compression over the 64-byte blocks of the padded message
(whose length is always a multiple of 64). -/
def shaBlocks (hs : List Nat) (padded : Bytes) : List Nat :=
  shaBlocksGo hs padded (padded.length / 64)

/-- `hashlib.sha256(data).digest()`: the 32-byte SHA-256 digest. -/
def sha256 (msg : Bytes) : Bytes :=
  (shaBlocks shaInit (shaPad msg)).flatMap (beBytes 4)

/-- `crypto.cid_v0`: `"sha256:"` followed by the unpadded URL-safe base64
encoding of the SHA-256 digest of the payload bytes. -/
def cid_v0 (data : Bytes) : String :=
  "sha256:" ++ b64url_no_pad (sha256 data)

/-! ### PyNaCl layer and the crypto.py wrappers -/

/-- The Python exceptions the crypto wrappers can surface or catch. -/
inductive PyErr where
  | valueError
  | typeError
  | badSignature
  | binasciiError
  deriving DecidableEq, Repr

/-- Modelled from the PyNaCl dependency of `crypto.verify_ed25519`:
`VerifyKey(pubkey)` raises `nacl.exceptions.ValueError` unless the key is
exactly 32 bytes, `VerifyKey.verify` raises `nacl.exceptions.ValueError`
unless the signature is exactly 64 bytes, and `crypto_sign_open` raises
`BadSignatureError` when the Ed25519 equation fails.  The Ed25519 equation
itself lives in libsodium and is not reimplemented here; it enters as the
parameter `core`. -/
def naclVerifyRaw (core : Bytes → Bytes → Bytes → Bool)
    (pubkey message signature : Bytes) : Except PyErr Unit :=
  if pubkey.length ≠ 32 then .error .valueError
  else if signature.length ≠ 64 then .error .valueError
  else if core pubkey message signature then .ok ()
  else .error .badSignature

/-- `crypto.verify_ed25519`: runs the PyNaCl verification inside a
`try/except` that catches only `BadSignatureError` (returning `False`);
every other exception propagates. -/
def verify_ed25519 (core : Bytes → Bytes → Bytes → Bool)
    (pubkey message signature : Bytes) : Except PyErr Bool :=
  match naclVerifyRaw core pubkey message signature with
  | .ok () => .ok true
  | .error .badSignature => .ok false
  | .error e => .error e

/-- `crypto.sign_ed25519`: `SigningKey(privkey)` raises
`nacl.exceptions.ValueError` unless the seed is exactly 32 bytes; signing
itself is the libsodium primitive, entering as the parameter `signP`. -/
def sign_ed25519 (signP : Bytes → Bytes → Bytes)
    (privkey message : Bytes) : Except PyErr Bytes :=
  if privkey.length ≠ 32 then .error .valueError
  else .ok (signP privkey message)

/-- `models.Envelope`: three base64url-encoded string fields. -/
structure Envelope where
  sender_pub : String
  payload : String
  signature : String

/-- `models.Envelope.create`: encode the three byte strings. -/
def Envelope.create (sender_pub payload signature : Bytes) : Envelope :=
  ⟨b64url_no_pad sender_pub, b64url_no_pad payload, b64url_no_pad signature⟩

/-- `envelope.verify_envelope`: decode the three fields (a failed decode is
an uncaught `binascii.Error`), then `verify_ed25519`. -/
def verify_envelope (core : Bytes → Bytes → Bytes → Bool)
    (env : Envelope) : Except PyErr Bool :=
  match b64url_to_bytes env.payload with
  | none => .error .binasciiError
  | some payload =>
  match b64url_to_bytes env.sender_pub with
  | none => .error .binasciiError
  | some pubkey =>
  match b64url_to_bytes env.signature with
  | none => .error .binasciiError
  | some sig => verify_ed25519 core pubkey payload sig

/-! ### HEL-lite policy (hel.py) -/

/-- `hel.MAX_PAYLOAD_BYTES`: 64 KiB. -/
def MAX_PAYLOAD_BYTES : Nat := 64 * 1024

/-- `hel.check_payload_size`. -/
def check_payload_size (size : Nat) : Bool × String :=
  if size ≤ MAX_PAYLOAD_BYTES then (true, "ok")
  else (false, "payload too large: " ++ toString size ++ " > " ++ toString MAX_PAYLOAD_BYTES)

/-- `hel.REQUIRED_HEADERS`. -/
def REQUIRED_HEADERS : List String := ["X-ODIN-Trace-Id", "X-ODIN-Payload-CID"]

/-- A request header mapping; `none` models an absent header. -/
abbrev Headers := String → Option String

/-- The `for k in REQUIRED_HEADERS` loop of `hel.check_required_headers`. -/
def requiredHeadersLoop (headers : Headers) : List String → Bool × String
  | [] => (true, "ok")
  | k :: rest =>
    if (headers k).isNone then (false, "missing required header: " ++ k)
    else requiredHeadersLoop headers rest

/-- `hel.check_required_headers`. -/
def check_required_headers (headers : Headers) : Bool × String :=
  requiredHeadersLoop headers REQUIRED_HEADERS

/-! ### Gateway app (app.py) -/

/-- `app.MAX_BODY` with the default `ODIN_MAX_BODY_BYTES` of 65536. -/
def MAX_BODY : Nat := 65536

/-- `fastapi.HTTPException(status_code, detail)`. -/
structure HErr where
  status : Nat
  detail : String
  deriving DecidableEq, Repr

/-- The size half of `app.enforce_hel`: 413 on an oversize body. -/
def sizeGate (raw : Bytes) : Except HErr Unit :=
  if raw.length > MAX_BODY then .error ⟨413, "payload too large"⟩ else .ok ()

/-- The header half of `app.enforce_hel`: the `for h in required` loop,
raising 400 at the first absent header. -/
def headerGate (headers : Headers) : List String → Except HErr Unit
  | [] => .ok ()
  | k :: rest =>
    if (headers k).isNone then .error ⟨400, "missing header " ++ k⟩
    else headerGate headers rest

/-- `app.enforce_hel`: header check for every path except `/echo`, then the
size check. -/
def enforce_hel (path : String) (headers : Headers) (raw : Bytes) : Except HErr Unit :=
  match (if path ≠ "/echo"
         then headerGate headers ["X-ODIN-Trace-Id", "X-ODIN-Payload-CID"]
         else .ok ()) with
  | .error e => .error e
  | .ok () => sizeGate raw

/-- The two response shapes of the `/echo` handler. -/
inductive EchoResp where
  | octets (b : Bytes)
  | jsonLen (n : Nat)
  deriving DecidableEq, Repr

/-- The `POST /echo` handler: HEL-lite on the `/echo` path (size only), then
the body is returned whole — raw bytes when the Accept header asks for
`application/octet-stream` (the substring test enters as the boolean
`acceptOctet`), a length summary otherwise. -/
def echo (acceptOctet : Bool) (headers : Headers) (raw : Bytes) : Except HErr EchoResp :=
  match enforce_hel "/echo" headers raw with
  | .error e => .error e
  | .ok () => .ok (if acceptOctet then .octets raw else .jsonLen raw.length)

/-- JSON documents, at the level `json.dumps`/`json.loads` round-trips. -/
inductive Json where
  | null
  | str (s : String)
  | num (n : Nat)
  | arr (xs : List Json)
  | obj (fs : List (String × Json))

/-- Field lookup in a JSON object (`d[k]` on a parsed dict), first match. -/
def jGet : List (String × Json) → String → Option Json
  | [], _ => none
  | (q, v) :: rest, k => if q = k then some v else jGet rest k

/-- `app.key_receipt`. -/
def key_receipt (trace_id hop_id : String) : String :=
  "receipts/" ++ trace_id ++ "/hops/" ++ hop_id ++ ".json"

/-- `app.key_receipt_index`. -/
def key_receipt_index (trace_id : String) : String :=
  "receipts/" ++ trace_id ++ "/index.json"

/-! ### In-memory storage (storage/in_memory.py) -/

/-- The `_s` dict of `InMemoryStorage`, as a partial map.  The Python dict is
value-type-agnostic, hence the type parameter; the gateway stores JSON-dumped
bytes, modelled as the `Json` tree they dump. -/
def InMemoryStorage (α : Type) := String → Option α

/-- A freshly constructed `InMemoryStorage` holds nothing. -/
def InMemoryStorage.empty {α : Type} : InMemoryStorage α := fun _ => none

/-- `FileNotFoundError(key)`. -/
structure NotFound where
  key : String
  deriving DecidableEq, Repr

/-- `InMemoryStorage.put_bytes`: insert or overwrite. -/
def put_bytes {α : Type} (s : InMemoryStorage α) (k : String) (b : α) : InMemoryStorage α :=
  fun q => if q = k then some b else s q

/-- `InMemoryStorage.get_bytes`: raises `FileNotFoundError` on a missing key. -/
def get_bytes {α : Type} (s : InMemoryStorage α) (k : String) : Except NotFound α :=
  match s k with
  | some b => .ok b
  | none => .error ⟨k⟩

/-- `InMemoryStorage.exists`. -/
def existsKey {α : Type} (s : InMemoryStorage α) (k : String) : Bool :=
  (s k).isSome

/-- Replay a history of `put_bytes` calls against a fresh store. -/
def applyPuts {α : Type} (ops : List (String × α)) : InMemoryStorage α :=
  ops.foldl (fun s kv => put_bytes s kv.1 kv.2) InMemoryStorage.empty

/-- The gateway's `STORAGE` under the default in-memory driver. -/
abbrev Storage := InMemoryStorage Json

/-! ### Envelope handler and chain reconstruction (app.py) -/

/-- Line 197 of app.py: `str(int(time.time() * 1000))[-6:]`, the hop id as
the last six characters of the decimal millisecond clock. -/
def hopId (now_ms : Nat) : String :=
  (toString now_ms).takeRight 6

/-- The receipt dict built by the `/v1/envelope` handler, with its exact
field names. -/
def receiptJson (trace_id hop_id payload_cid ts kid sigVal : String) : Json :=
  .obj [("trace_id", .str trace_id),
        ("hop_id", .str hop_id),
        ("payload_cid", .str payload_cid),
        ("policy", .obj [("verdict", .str "allow"),
           ("rules", .arr [.str "required-headers", .str ("size<=" ++ toString MAX_BODY)])]),
        ("ts", .str ts),
        ("signature", .obj [("kid", .str kid), ("alg", .str "EdDSA"), ("sig", .str sigVal)])]

/-- `jwks_loader.jwk_from_pub`. -/
def jwk_from_pub (pub : Bytes) (kid : String) : Json :=
  .obj [("kty", .str "OKP"), ("crv", .str "Ed25519"),
        ("kid", .str kid), ("x", .str (b64url_no_pad pub))]

/-- The `GET /.well-known/jwks.json` response for the active key. -/
def jwksResponse (pub : Bytes) (kid : String) : Json :=
  .obj [("keys", .arr [jwk_from_pub pub kid])]

/-- `jwks_loader.sign_bytes`: `SigningKey(priv).sign(payload).signature`,
the raw Ed25519 primitive (parameter `signP`); the active key loaded at
startup satisfies its 32-byte precondition. -/
def sign_bytes (signP : Bytes → Bytes → Bytes) (priv payload : Bytes) : Bytes :=
  signP priv payload

/-- `trace_id = request.headers.get("X-ODIN-Trace-Id")` as used by the
envelope handler (after `enforce_hel` the header is always present; the
`getD` default mirrors Python `str(None)` interpolation on the dead path). -/
def envTrace (headers : Headers) : String :=
  (headers "X-ODIN-Trace-Id").getD "None"

/-- `payload_cid = request.headers.get("X-ODIN-Payload-CID")`, as above. -/
def envCid (headers : Headers) : String :=
  (headers "X-ODIN-Payload-CID").getD "None"

/-- The handler's `sig` value, base64url-encoded: a signature over the
canonical `trace_id.payload_cid` string. -/
def envSigVal (signP : Bytes → Bytes → Bytes) (priv : Bytes) (headers : Headers) : String :=
  b64url_no_pad (sign_bytes signP priv (utf8Bytes (envTrace headers ++ "." ++ envCid headers)))

/-- The receipt dict the handler builds and returns. -/
def envReceipt (signP : Bytes → Bytes → Bytes) (priv : Bytes) (kid : String)
    (headers : Headers) (now_ms : Nat) (ts : String) : Json :=
  receiptJson (envTrace headers) (hopId now_ms) (envCid headers) ts kid
    (envSigVal signP priv headers)

/-- The `{"hop_id": hop_id}` entry appended to the ReceiptIndex. -/
def newIdxEntry (now_ms : Nat) : Json :=
  Json.obj [("hop_id", Json.str (hopId now_ms))]

/-- The `POST /v1/envelope` handler as a storage transformer.  The wall
clock enters as `now_ms`, the formatted UTC timestamp as `ts`, and the JSON
grammar as `parseJson` (the parsed body is discarded; only its success is
observed).  The receipt is persisted first, then the index is read (a stored
non-array raises, a 500), appended to and written back.  On success it
returns the receipt of the 201 response and the updated storage. -/
def envelope (signP : Bytes → Bytes → Bytes) (priv : Bytes) (kid : String)
    (parseJson : Bytes → Option Json) (headers : Headers) (raw : Bytes)
    (now_ms : Nat) (ts : String) (s : Storage) : Except HErr (Json × Storage) :=
  match enforce_hel "/v1/envelope" headers raw with
  | .error e => .error e
  | .ok () =>
  match (if raw.isEmpty then some (Json.obj []) else parseJson raw) with
  | none => .error ⟨400, "invalid JSON payload"⟩
  | some _ =>
  match put_bytes s (key_receipt (envTrace headers) (hopId now_ms))
          (envReceipt signP priv kid headers now_ms ts)
          (key_receipt_index (envTrace headers)) with
  | none =>
      .ok (envReceipt signP priv kid headers now_ms ts,
        put_bytes
          (put_bytes s (key_receipt (envTrace headers) (hopId now_ms))
            (envReceipt signP priv kid headers now_ms ts))
          (key_receipt_index (envTrace headers)) (Json.arr [newIdxEntry now_ms]))
  | some (Json.arr xs) =>
      .ok (envReceipt signP priv kid headers now_ms ts,
        put_bytes
          (put_bytes s (key_receipt (envTrace headers) (hopId now_ms))
            (envReceipt signP priv kid headers now_ms ts))
          (key_receipt_index (envTrace headers)) (Json.arr (xs ++ [newIdxEntry now_ms])))
  | some _ => .error ⟨500, "Internal Server Error"⟩

/-- Faults of chain reconstruction: a missing receipt for an indexed hop
(`FileNotFoundError`) or an index entry of the wrong shape. -/
inductive ChainErr where
  | fileNotFound (key : String)
  | typeError
  deriving DecidableEq, Repr

/-- The `for hop in index` loop of `get_chain`: fetch each
`receipts/{trace_id}/hops/{hop_id}.json` in index order; a missing receipt
raises `FileNotFoundError`. -/
def fetchChain (s : Storage) (trace_id : String) : List Json → Except ChainErr (List Json)
  | [] => .ok []
  | hop :: rest =>
    match hop with
    | .obj fs =>
      match jGet fs "hop_id" with
      | some (.str h) =>
        match s (key_receipt trace_id h) with
        | none => .error (.fileNotFound (key_receipt trace_id h))
        | some rec =>
          match fetchChain s trace_id rest with
          | .error e => .error e
          | .ok chain => .ok (rec :: chain)
      | _ => .error .typeError
    | _ => .error .typeError

/-- The `GET /v1/receipts/hops/chain/{trace_id}` handler: empty chain when
no index exists, otherwise resolve every indexed hop in order. -/
def get_chain (s : Storage) (trace_id : String) : Except ChainErr (List Json) :=
  match s (key_receipt_index trace_id) with
  | none => .ok []
  | some (Json.arr hops) => fetchChain s trace_id hops
  | some _ => .error .typeError

/-- Decode one ReceiptIndex entry `{"hop_id": h}`. -/
def decodeEntry (j : Json) : Option String :=
  match j with
  | .obj fs =>
    match jGet fs "hop_id" with
    | some (.str h) => some h
    | _ => none
  | _ => none

/-- Decode a list of ReceiptIndex entries. -/
def decodeEntries : List Json → Option (List String)
  | [] => some []
  | x :: rest =>
    match decodeEntry x, decodeEntries rest with
    | some h, some hs => some (h :: hs)
    | _, _ => none

/-- Decode a stored ReceiptIndex document into its hop ids. -/
def decodeIndex (j : Json) : Option (List String) :=
  match j with
  | .arr xs => decodeEntries xs
  | _ => none

/-- The index/receipt integrity invariant: every hop id readable from a
trace's ReceiptIndex has a value persisted under its receipt key. -/
def Inv (s : Storage) : Prop :=
  ∀ tid v hs, s (key_receipt_index tid) = some v → decodeIndex v = some hs →
    ∀ h ∈ hs, (s (key_receipt tid h)).isSome

/-- Storage states reachable from a fresh store by successful
`POST /v1/envelope` completions (the only writers in the gateway). -/
inductive Reachable : Storage → Prop where
  | empty : Reachable InMemoryStorage.empty
  | step {s s' : Storage} (signP : Bytes → Bytes → Bytes) (priv : Bytes)
      (kid : String) (parseJson : Bytes → Option Json) (headers : Headers)
      (raw : Bytes) (now_ms : Nat) (ts : String) (r : Json) :
      Reachable s →
      envelope signP priv kid parseJson headers raw now_ms ts s = .ok (r, s') →
      Reachable s'

/-- The receipt of a successful handler response. -/
def receiptOf (x : Except HErr (Json × Storage)) : Option Json :=
  x.toOption.map Prod.fst

/-- Field access on a JSON document that is an object. -/
def jField (j : Json) (k : String) : Option Json :=
  match j with
  | .obj fs => jGet fs k
  | _ => none

/-- Read a digit string as a base-10 natural (for comparing hop ids). -/
def decVal (s : String) : Nat :=
  s.data.foldl (fun a c => a * 10 + (c.toNat - 48)) 0

/-! ### Concrete instantiations used by witnesses

The Ed25519 primitive is external library code; witness theorems instantiate
the primitive parameters with a toy deterministic scheme so that the
hypotheses of the wiring theorems can be discharged on concrete inputs. -/

/-- Toy signing primitive for witnesses. -/
def toySign (sk msg : Bytes) : Bytes := sk ++ msg

/-- Toy verification primitive matching `toySign`. -/
def toyCore (pk msg sig : Bytes) : Bool := decide (sig = pk ++ msg)

/-- Toy public-key derivation matching `toyCore`. -/
def toyDerive (sk : Bytes) : Bytes := sk

/-- A concrete 32-byte seed. -/
def toyPriv : Bytes := List.replicate 32 7

/-- Concrete request headers holding both required ODIN headers. -/
def toyHeaders : Headers := fun k =>
  if k = "X-ODIN-Trace-Id" then some "t1"
  else if k = "X-ODIN-Payload-CID" then some "sha256:abc" else none

/-- A body parser accepting everything (the handler discards the value). -/
def toyParse : Bytes → Option Json := fun _ => some Json.null

/-- One concrete successful envelope post against a fresh store. -/
def c3run : Except HErr (Json × Storage) :=
  envelope toySign toyPriv "test-kid" toyParse toyHeaders [] 1700000000123
    "2026-10-12T00:00:00Z" InMemoryStorage.empty

/-- A store holding one receipt for trace `t1` and its one-entry index. -/
def oneHopStore : Storage :=
  put_bytes
    (put_bytes InMemoryStorage.empty (key_receipt "t1" "000001") (Json.str "r1"))
    (key_receipt_index "t1") (Json.arr [Json.obj [("hop_id", Json.str "000001")]])

/-- A store whose trace `t2` index references a hop with no stored receipt. -/
def gapStore : Storage :=
  put_bytes InMemoryStorage.empty (key_receipt_index "t2")
    (Json.arr [Json.obj [("hop_id", Json.str "000009")]])

/-! ## Lemmas about the base64url codec -/

theorem sextetChar_ne_pad (n : Nat) : sextetChar n ≠ '=' := by
  unfold sextetChar
  by_cases h : n < b64Alphabet.length
  · rw [List.getD_eq_getElem _ _ h]
    have hall : ∀ c ∈ b64Alphabet, c ≠ '=' := by decide
    exact hall _ (List.getElem_mem h)
  · rw [List.getD_eq_default _ _ (le_of_not_lt h)]
    decide

theorem rstripEq_cons_ne {c : Char} (h : c ≠ '=') (cs : List Char) :
    rstripEq (c :: cs) = c :: rstripEq cs := by
  cases hcs : rstripEq cs with
  | nil => simp [rstripEq, hcs, h]
  | cons r rs => simp [rstripEq, hcs]

theorem rstripEq_encode (bs : Bytes) :
    rstripEq (b64encodePadded bs) = b64urlSpecChars bs := by
  induction bs using b64encodePadded.induct with
  | case1 a b c rest ih =>
      simp only [b64encodePadded, b64urlSpecChars]
      rw [rstripEq_cons_ne (sextetChar_ne_pad _), rstripEq_cons_ne (sextetChar_ne_pad _),
          rstripEq_cons_ne (sextetChar_ne_pad _), rstripEq_cons_ne (sextetChar_ne_pad _), ih]
  | case2 a b =>
      simp only [b64encodePadded, b64urlSpecChars]
      rw [rstripEq_cons_ne (sextetChar_ne_pad _), rstripEq_cons_ne (sextetChar_ne_pad _),
          rstripEq_cons_ne (sextetChar_ne_pad _)]
      simp [rstripEq]
  | case3 a =>
      simp only [b64encodePadded, b64urlSpecChars]
      rw [rstripEq_cons_ne (sextetChar_ne_pad _), rstripEq_cons_ne (sextetChar_ne_pad _)]
      simp [rstripEq]
  | case4 => rfl

theorem b64url_no_pad_spec (bs : Bytes) :
    b64url_no_pad bs = ⟨b64urlSpecChars bs⟩ := by
  unfold b64url_no_pad
  rw [rstripEq_encode]

theorem sextetVal_sextetChar : ∀ n, n < 64 → sextetVal (sextetChar n) = some n := by decide

theorem spec_pad (bs : Bytes) :
    b64urlSpecChars bs ++
        List.replicate ((4 - (b64urlSpecChars bs).length % 4) % 4) '=' =
      b64encodePadded bs := by
  induction bs using b64urlSpecChars.induct with
  | case1 a b c rest ih =>
      simp only [b64urlSpecChars, b64encodePadded, List.length_cons]
      have hmod : (rest' : Nat) → (rest' + 1 + 1 + 1 + 1) % 4 = rest' % 4 := by omega
      rw [hmod]
      simp only [List.cons_append]
      rw [ih]
  | case2 a b => simp [b64urlSpecChars, b64encodePadded, List.replicate]
  | case3 a => simp [b64urlSpecChars, b64encodePadded, List.replicate]
  | case4 => rfl

theorem decode_encode (bs : Bytes) (h : BytesWF bs) :
    b64decodePadded (b64encodePadded bs) = some bs := by
  induction bs using b64encodePadded.induct with
  | case1 a b c rest ih =>
      have ha : a < 256 := h a (by simp)
      have hb : b < 256 := h b (by simp)
      have hc : c < 256 := h c (by simp)
      have hrest : BytesWF rest := fun x hx => h x (by simp [hx])
      simp only [b64encodePadded, b64decodePadded,
        if_neg (sextetChar_ne_pad (b % 16 * 4 + c / 64)),
        if_neg (sextetChar_ne_pad (c % 64))]
      rw [sextetVal_sextetChar _ (by omega), sextetVal_sextetChar _ (by omega),
          sextetVal_sextetChar _ (by omega), sextetVal_sextetChar _ (by omega),
          ih hrest]
      simp
      omega
  | case2 a b =>
      have ha : a < 256 := h a (by simp)
      have hb : b < 256 := h b (by simp)
      simp only [b64encodePadded, b64decodePadded,
        if_neg (sextetChar_ne_pad (b % 16 * 4)), if_pos rfl, if_pos (rfl : ([] : List Char) = [])]
      rw [sextetVal_sextetChar _ (by omega), sextetVal_sextetChar _ (by omega),
          sextetVal_sextetChar _ (by omega)]
      simp
      omega
  | case3 a =>
      have ha : a < 256 := h a (by simp)
      simp only [b64encodePadded, b64decodePadded, if_pos rfl]
      rw [sextetVal_sextetChar _ (by omega), sextetVal_sextetChar _ (by omega)]
      simp
      omega
  | case4 => rfl

theorem b64_roundtrip (bs : Bytes) (h : BytesWF bs) :
    b64url_to_bytes (b64url_no_pad bs) = some bs := by
  rw [b64url_no_pad_spec]
  unfold b64url_to_bytes
  have hd : (⟨b64urlSpecChars bs⟩ : String).data = b64urlSpecChars bs := rfl
  have hl : (⟨b64urlSpecChars bs⟩ : String).length = (b64urlSpecChars bs).length := rfl
  rw [hd, hl, spec_pad]
  exact decode_encode bs h

theorem utf8Bytes_wf (s : String) : BytesWF (utf8Bytes s) := by
  intro b hb
  unfold utf8Bytes at hb
  rw [List.mem_flatMap] at hb
  obtain ⟨c, _, hc⟩ := hb
  unfold utf8Char at hc
  by_cases h1 : c.toNat < 0x80
  · simp [h1] at hc
    omega
  · by_cases h2 : c.toNat < 0x800
    · simp [h1, h2] at hc
      rcases hc with h | h <;> omega
    · by_cases h3 : c.toNat < 0x10000
      · simp [h1, h2, h3] at hc
        rcases hc with h | h | h <;> omega
      · have hv := c.valid
        simp only [UInt32.isValidChar, Nat.isValidChar] at hv
        have hmax : c.toNat < 0x110000 := by
          show c.val.toNat < 0x110000
          omega
        simp [h1, h2, h3] at hc
        rcases hc with h | h | h | h <;> omega

/-! ## Lemmas about storage and the canonical keys -/

theorem put_bytes_self {α : Type} (s : InMemoryStorage α) (k : String) (v : α) :
    put_bytes s k v k = some v := by
  simp [put_bytes]

theorem put_bytes_other {α : Type} (s : InMemoryStorage α) (k q : String) (v : α)
    (h : q ≠ k) : put_bytes s k v q = s q := by
  simp [put_bytes, h]

theorem put_bytes_isSome {α : Type} {s : InMemoryStorage α} {q : String}
    (k : String) (v : α) (h : (s q).isSome) : (put_bytes s k v q).isSome := by
  by_cases hq : q = k <;> simp [put_bytes, hq, h]

theorem key_receipt_index_inj {t t2 : String}
    (h : key_receipt_index t = key_receipt_index t2) : t = t2 := by
  unfold key_receipt_index at h
  have h2 := congrArg String.data h
  simp only [String.data_append, List.append_assoc] at h2
  exact String.ext (List.append_cancel_right (List.append_cancel_left h2))

theorem key_receipt_index_ne_key_receipt (t hop : String) :
    key_receipt_index t ≠ key_receipt t hop := by
  intro h
  have h2 := congrArg String.data h
  simp only [key_receipt_index, key_receipt, String.data_append, List.append_assoc] at h2
  have h3 := List.append_cancel_left (List.append_cancel_left h2)
  simp only [List.cons_append] at h3
  injection h3 with _ h4
  injection h4 with h5 _
  exact absurd h5 (by decide)

/-! ## Lemmas about index decoding and the integrity invariant -/

theorem decodeEntry_single (hop : String) :
    decodeEntry (Json.obj [("hop_id", Json.str hop)]) = some hop := by
  simp [decodeEntry, jGet]

theorem decodeEntries_append_single (xs : List Json) (hop : String) :
    decodeEntries (xs ++ [Json.obj [("hop_id", Json.str hop)]]) =
      (decodeEntries xs).map (fun hs => hs ++ [hop]) := by
  induction xs with
  | nil => simp [decodeEntries, decodeEntry_single]
  | cons x rest ih =>
      show decodeEntries (x :: (rest ++ _)) = _
      unfold decodeEntries
      rw [ih]
      cases hdx : decodeEntry x <;> cases hdr : decodeEntries rest <;> simp

theorem decodeIndex_receiptJson (a b c d e f : String) :
    decodeIndex (receiptJson a b c d e f) = none := rfl

theorem Inv_after_append (s : Storage) (hInv : Inv s) (tid hop : String) (rec : Json)
    (hrec : decodeIndex rec = none) (xs : List Json)
    (hxs : s (key_receipt_index tid) = some (Json.arr xs) ∨
      (s (key_receipt_index tid) = none ∧ xs = [])) :
    Inv (put_bytes (put_bytes s (key_receipt tid hop) rec) (key_receipt_index tid)
          (Json.arr (xs ++ [Json.obj [("hop_id", Json.str hop)]]))) := by
  intro tid2 v hs hv hdec h hmem
  by_cases hEq : key_receipt_index tid2 = key_receipt_index tid
  · have htid : tid2 = tid := key_receipt_index_inj hEq
    subst htid
    rw [put_bytes_self] at hv
    injection hv with hv
    subst hv
    rw [show decodeIndex (Json.arr (xs ++ [Json.obj [("hop_id", Json.str hop)]])) =
        decodeEntries (xs ++ [Json.obj [("hop_id", Json.str hop)]]) from rfl,
      decodeEntries_append_single] at hdec
    rcases Option.map_eq_some'.mp hdec with ⟨hs0, hdx, hshape⟩
    subst hshape
    rcases List.mem_append.mp hmem with hmem0 | hmemh
    · -- an old hop id: its receipt was already persisted
      have hold : (s (key_receipt tid2 h)).isSome := by
        rcases hxs with hsome | ⟨_, hnil⟩
        · exact hInv tid2 (Json.arr xs) hs0 hsome hdx h hmem0
        · subst hnil
          simp [decodeEntries] at hdx
          subst hdx
          simp at hmem0
      exact put_bytes_isSome _ _ (put_bytes_isSome _ _ hold)
    · -- the freshly appended hop id: its receipt was written first
      have hh : h = hop := by simpa using hmemh
      subst hh
      rw [put_bytes_other _ _ _ _ (Ne.symm (key_receipt_index_ne_key_receipt tid2 h)),
        put_bytes_self]
      simp
  · rw [put_bytes_other _ _ _ _ hEq] at hv
    by_cases hEq2 : key_receipt_index tid2 = key_receipt tid hop
    · rw [hEq2, put_bytes_self] at hv
      injection hv with hv
      subst hv
      rw [hrec] at hdec
      exact absurd hdec (by simp)
    · rw [put_bytes_other _ _ _ _ hEq2] at hv
      exact put_bytes_isSome _ _ (put_bytes_isSome _ _ (hInv tid2 v hs hv hdec h hmem))

/-! ## Inversion of a successful envelope post -/

theorem envelope_ok {signP : Bytes → Bytes → Bytes} {priv : Bytes} {kid : String}
    {parseJson : Bytes → Option Json} {headers : Headers} {raw : Bytes}
    {now_ms : Nat} {ts : String} {s : Storage} {r : Json} {s' : Storage}
    (hrun : envelope signP priv kid parseJson headers raw now_ms ts s = .ok (r, s')) :
    ∃ xs : List Json,
      (s (key_receipt_index (envTrace headers)) = some (Json.arr xs) ∨
        (s (key_receipt_index (envTrace headers)) = none ∧ xs = [])) ∧
      r = envReceipt signP priv kid headers now_ms ts ∧
      s' = put_bytes
          (put_bytes s (key_receipt (envTrace headers) (hopId now_ms)) r)
          (key_receipt_index (envTrace headers))
          (Json.arr (xs ++ [newIdxEntry now_ms])) := by
  unfold envelope at hrun
  split at hrun
  · exact absurd hrun (by simp)
  · split at hrun
    · exact absurd hrun (by simp)
    · split at hrun
      case _ hidx =>
        injection hrun with hpair
        injection hpair with hr hs'
        refine ⟨[], Or.inr ⟨?_, rfl⟩, hr.symm, ?_⟩
        · rwa [put_bytes_other _ _ _ _
            (key_receipt_index_ne_key_receipt (envTrace headers) (hopId now_ms))] at hidx
        · rw [← hs', hr]
          simp
      case _ xs hidx =>
        injection hrun with hpair
        injection hpair with hr hs'
        refine ⟨xs, Or.inl ?_, hr.symm, ?_⟩
        · rwa [put_bytes_other _ _ _ _
            (key_receipt_index_ne_key_receipt (envTrace headers) (hopId now_ms))] at hidx
        · rw [← hs', hr]
      case _ => exact absurd hrun (by simp)

/-- A successful envelope post preserves the integrity invariant. -/
theorem envelope_preserves_Inv {signP : Bytes → Bytes → Bytes} {priv : Bytes}
    {kid : String} {parseJson : Bytes → Option Json} {headers : Headers}
    {raw : Bytes} {now_ms : Nat} {ts : String} {s : Storage} {r : Json}
    {s' : Storage} (hInv : Inv s)
    (hrun : envelope signP priv kid parseJson headers raw now_ms ts s = .ok (r, s')) :
    Inv s' := by
  obtain ⟨xs, hxs, hr, hs'⟩ := envelope_ok hrun
  subst hs'
  subst hr
  exact Inv_after_append s hInv (envTrace headers) (hopId now_ms) _
    (decodeIndex_receiptJson _ _ _ _ _ _) xs hxs

/-! ## Lemmas about chain reconstruction -/

theorem fetchChain_complete (s : Storage) (tid : String) :
    ∀ entries hs, decodeEntries entries = some hs →
      (∀ h ∈ hs, (s (key_receipt tid h)).isSome) →
      fetchChain s tid entries =
        .ok (hs.map fun h => (s (key_receipt tid h)).getD Json.null) := by
  intro entries
  induction entries with
  | nil =>
      intro hs hdec _
      simp only [decodeEntries] at hdec
      injection hdec with hdec
      subst hdec
      rfl
  | cons e rest ih =>
      intro hs hdec hall
      unfold decodeEntries at hdec
      cases hde : decodeEntry e <;> rw [hde] at hdec
      · exact absurd hdec (by simp)
      case some h0 =>
      cases hdr : decodeEntries rest <;> rw [hdr] at hdec
      · exact absurd hdec (by simp)
      case some hs0 =>
      injection hdec with hdec
      subst hdec
      cases e <;> simp only [decodeEntry] at hde <;>
        first
        | exact absurd hde (by simp)
        | skip
      case obj fs =>
      cases hjg : jGet fs "hop_id" <;> rw [hjg] at hde
      · exact absurd hde (by simp)
      case some jv =>
      cases jv with
      | null => simp at hde
      | num n => simp at hde
      | arr ys => simp at hde
      | obj fs2 => simp at hde
      | str h0' =>
      have hde2 : h0' = h0 := by simpa using hde
      subst hde2
      have hsome := hall h0' (by simp)
      obtain ⟨rec, hrec⟩ := Option.isSome_iff_exists.mp hsome
      have hrest := ih hs0 hdr (fun h hm => hall h (by simp [hm]))
      simp [fetchChain, hjg, hrec, hrest]

theorem fetchChain_missing (s : Storage) (tid : String) :
    ∀ entries hs h, decodeEntries entries = some hs → h ∈ hs →
      s (key_receipt tid h) = none →
      ∃ e, fetchChain s tid entries = .error e := by
  intro entries
  induction entries with
  | nil =>
      intro hs h hdec hmem _
      simp only [decodeEntries] at hdec
      injection hdec with hdec
      subst hdec
      exact absurd hmem (by simp)
  | cons e rest ih =>
      intro hs h hdec hmem hnone
      unfold decodeEntries at hdec
      cases hde : decodeEntry e <;> rw [hde] at hdec
      · exact absurd hdec (by simp)
      case some h0 =>
      cases hdr : decodeEntries rest <;> rw [hdr] at hdec
      · exact absurd hdec (by simp)
      case some hs0 =>
      injection hdec with hdec
      subst hdec
      cases e <;> simp only [decodeEntry] at hde <;>
        first
        | exact absurd hde (by simp)
        | skip
      case obj fs =>
      cases hjg : jGet fs "hop_id" <;> rw [hjg] at hde
      · exact absurd hde (by simp)
      case some jv =>
      cases jv with
      | null => simp at hde
      | num n => simp at hde
      | arr ys => simp at hde
      | obj fs2 => simp at hde
      | str h0' =>
      have hde2 : h0' = h0 := by simpa using hde
      subst hde2
      cases hcur : s (key_receipt tid h0') with
      | none => exact ⟨.fileNotFound (key_receipt tid h0'), by simp [fetchChain, hjg, hcur]⟩
      | some rec =>
          rcases List.mem_cons.mp hmem with hh | hmem0
          · subst hh
            rw [hcur] at hnone
            exact absurd hnone (by simp)
          · obtain ⟨e2, he2⟩ := ih hs0 h hdr hmem0 hnone
            exact ⟨e2, by simp [fetchChain, hjg, hcur, he2]⟩

/-! ## Lemmas about the in-memory store history -/

theorem get_bytes_error_iff {α : Type} (s : InMemoryStorage α) (k : String) :
    (∃ e, get_bytes s k = .error e) ↔ s k = none := by
  unfold get_bytes
  cases h : s k <;> simp

theorem foldl_puts_none {α : Type} :
    ∀ (ops : List (String × α)) (s0 : InMemoryStorage α) (k : String),
      (ops.foldl (fun s kv => put_bytes s kv.1 kv.2) s0) k = none ↔
        (k ∉ ops.map Prod.fst ∧ s0 k = none) := by
  intro ops
  induction ops with
  | nil => intro s0 k; simp
  | cons kv rest ih =>
      intro s0 k
      rw [List.foldl_cons, ih]
      unfold put_bytes
      by_cases hk : k = kv.1 <;> simp [hk]

/-! ## Claim theorems -/

/-- Claim C2 (code bug evaluation): `verify_ed25519` and `verify_envelope`
do not return `false` on malformed key or signature lengths — the PyNaCl
length checks raise `nacl.exceptions.ValueError`, which the `try/except`
around only `BadSignatureError` lets propagate, whatever the Ed25519
verification core does. -/
theorem verify_raises_on_malformed_lengths :
    (∀ core : Bytes → Bytes → Bytes → Bool,
      verify_ed25519 core [] [] [] = .error .valueError) ∧
    (∀ (core : Bytes → Bytes → Bytes → Bool) (msg sig : Bytes),
      verify_ed25519 core (List.replicate 31 0) msg sig = .error .valueError) ∧
    (∀ (core : Bytes → Bytes → Bytes → Bool) (msg : Bytes),
      verify_ed25519 core (List.replicate 32 0) msg [] = .error .valueError) ∧
    verify_envelope toyCore (Envelope.create (List.replicate 32 0) [] []) =
      .error .valueError := by
  refine ⟨fun core => rfl, fun core msg sig => ?_, fun core msg => ?_, rfl⟩
  · simp [verify_ed25519, naclVerifyRaw]
  · simp [verify_ed25519, naclVerifyRaw]

/-- Witness for C2 at a concrete verification core. -/
theorem verify_raises_on_malformed_lengths_witness :
    verify_ed25519 toyCore [] [] [] = .error .valueError :=
  verify_raises_on_malformed_lengths.1 toyCore

/-- Claim C3 (counterexample): the receipt returned by a successful
`POST /v1/envelope` carries a signature object whose field names are `kid`,
`alg` and `sig`; it has no `algorithm` and no `value` field, refuting the
claimed field set `{kid, algorithm, value}`. -/
theorem receipt_signature_field_names_counterexample :
    (receiptOf c3run).isSome = true ∧
    ((receiptOf c3run).bind (fun r => jField r "signature")).bind
      (fun so => jField so "algorithm") = none ∧
    ((receiptOf c3run).bind (fun r => jField r "signature")).bind
      (fun so => jField so "value") = none ∧
    ((receiptOf c3run).bind (fun r => jField r "signature")).bind
      (fun so => jField so "kid") = some (Json.str "test-kid") ∧
    ((receiptOf c3run).bind (fun r => jField r "signature")).bind
      (fun so => jField so "alg") = some (Json.str "EdDSA") ∧
    (((receiptOf c3run).bind (fun r => jField r "signature")).bind
      (fun so => jField so "sig")).isSome = true :=
  ⟨rfl, rfl, rfl, rfl, rfl, rfl⟩

/-- Claim C3 (amended): for every receipt returned by the handler, the
signature object is `{kid, alg: "EdDSA", sig}` where `sig` is the unpadded
URL-safe base64 encoding of the primitive's signature over exactly
`trace_id ++ "." ++ payload_cid`; that encoding decodes back to the
signature bytes, and the signature verifies (for any verification core
matching the signing primitive) against the public key published in the
JWKS entry whose `kid` equals the receipt's `kid`. -/
theorem receipt_signature_amended
    (signP : Bytes → Bytes → Bytes) (derive : Bytes → Bytes)
    (core : Bytes → Bytes → Bytes → Bool) (priv pub : Bytes) (kid : String)
    (parseJson : Bytes → Option Json) (headers : Headers) (raw : Bytes)
    (now_ms : Nat) (ts : String) (s s' : Storage) (r : Json) (trace cid : String)
    (hpub : pub = derive priv)
    (hcore : ∀ m : Bytes, core (derive priv) m (signP priv m) = true)
    (hT : headers "X-ODIN-Trace-Id" = some trace)
    (hC : headers "X-ODIN-Payload-CID" = some cid)
    (hrun : envelope signP priv kid parseJson headers raw now_ms ts s = .ok (r, s'))
    (hsWF : BytesWF (signP priv (utf8Bytes (trace ++ "." ++ cid))))
    (hpWF : BytesWF pub) :
    jField r "signature" = some (Json.obj [("kid", Json.str kid),
        ("alg", Json.str "EdDSA"),
        ("sig", Json.str (b64url_no_pad (signP priv (utf8Bytes (trace ++ "." ++ cid)))))]) ∧
    b64url_to_bytes (b64url_no_pad (signP priv (utf8Bytes (trace ++ "." ++ cid)))) =
      some (signP priv (utf8Bytes (trace ++ "." ++ cid))) ∧
    jField (jwksResponse pub kid) "keys" = some (Json.arr [jwk_from_pub pub kid]) ∧
    jField (jwk_from_pub pub kid) "kid" = some (Json.str kid) ∧
    jField (jwk_from_pub pub kid) "x" = some (Json.str (b64url_no_pad pub)) ∧
    b64url_to_bytes (b64url_no_pad pub) = some pub ∧
    core pub (utf8Bytes (trace ++ "." ++ cid)) (signP priv (utf8Bytes (trace ++ "." ++ cid))) =
      true := by
  obtain ⟨xs, _, hr, _⟩ := envelope_ok hrun
  have hT2 : envTrace headers = trace := by simp [envTrace, hT]
  have hC2 : envCid headers = cid := by simp [envCid, hC]
  subst hr
  refine ⟨?_, b64_roundtrip _ hsWF, rfl, rfl, rfl, b64_roundtrip _ hpWF, ?_⟩
  · simp [envReceipt, receiptJson, jField, jGet, envSigVal, sign_bytes, hT2, hC2]
  · rw [hpub]
    exact hcore _

/-- Witness for the amended C3 at the toy scheme and a concrete request. -/
theorem receipt_signature_amended_witness :
    b64url_to_bytes (b64url_no_pad (toySign toyPriv (utf8Bytes ("t1" ++ "." ++ "sha256:abc")))) =
      some (toySign toyPriv (utf8Bytes ("t1" ++ "." ++ "sha256:abc"))) ∧
    toyCore toyPriv (utf8Bytes ("t1" ++ "." ++ "sha256:abc"))
      (toySign toyPriv (utf8Bytes ("t1" ++ "." ++ "sha256:abc"))) = true := by
  obtain ⟨r, s2, hrun⟩ : ∃ r s2, c3run = .ok (r, s2) := ⟨_, _, rfl⟩
  have h := receipt_signature_amended toySign toyDerive toyCore toyPriv toyPriv
    "test-kid" toyParse toyHeaders [] 1700000000123 "2026-10-12T00:00:00Z"
    InMemoryStorage.empty s2 r "t1" "sha256:abc" rfl
    (fun m => by simp [toyCore, toyDerive, toySign]) rfl rfl hrun
    (by decide) (by decide)
  exact ⟨h.2.1, h.2.2.2.2.2.2⟩

/-- Claim C4: chain reconstruction returns the empty chain when no index
exists for the trace; when the index exists it returns the stored receipts
in exactly index order; and an indexed hop id whose receipt is absent from
storage makes it fault, never silently skip. -/
theorem chain_reconstruction_correct :
    (∀ (s : Storage) (tid : String), s (key_receipt_index tid) = none →
      get_chain s tid = .ok []) ∧
    (∀ (s : Storage) (tid : String) (entries : List Json) (hs : List String),
      s (key_receipt_index tid) = some (Json.arr entries) →
      decodeEntries entries = some hs →
      (∀ h ∈ hs, (s (key_receipt tid h)).isSome) →
      get_chain s tid = .ok (hs.map fun h => (s (key_receipt tid h)).getD Json.null)) ∧
    (∀ (s : Storage) (tid : String) (entries : List Json) (hs : List String) (h : String),
      s (key_receipt_index tid) = some (Json.arr entries) →
      decodeEntries entries = some hs → h ∈ hs → s (key_receipt tid h) = none →
      ∃ e, get_chain s tid = .error e) := by
  refine ⟨?_, ?_, ?_⟩
  · intro s tid hidx
    simp [get_chain, hidx]
  · intro s tid entries hs hidx hdec hall
    have hfetch := fetchChain_complete s tid entries hs hdec hall
    simp [get_chain, hidx, hfetch]
  · intro s tid entries hs h hidx hdec hmem hnone
    obtain ⟨e, he⟩ := fetchChain_missing s tid entries hs h hdec hmem hnone
    exact ⟨e, by simp [get_chain, hidx, he]⟩

/-- Witness for C4: an unseen trace, a one-hop trace, and a gapped index. -/
theorem chain_reconstruction_correct_witness :
    get_chain InMemoryStorage.empty "t0" = .ok [] ∧
    get_chain oneHopStore "t1" =
      .ok (["000001"].map fun h => (oneHopStore (key_receipt "t1" h)).getD Json.null) ∧
    (∃ e, get_chain gapStore "t2" = .error e) := by
  refine ⟨chain_reconstruction_correct.1 InMemoryStorage.empty "t0" rfl,
    chain_reconstruction_correct.2.1 oneHopStore "t1" _ ["000001"] rfl rfl ?_,
    chain_reconstruction_correct.2.2 gapStore "t2" _ ["000009"] "000009" rfl rfl
      (by simp) rfl⟩
  intro h hm
  simp at hm
  subst hm
  decide

/-- Claim C5: a successful envelope post preserves the index/receipt
integrity invariant (the receipt is persisted before its hop id is
appended), and the invariant holds in every storage state reachable from a
fresh store by successful envelope posts. -/
theorem receipt_index_integrity :
    (∀ (signP : Bytes → Bytes → Bytes) (priv : Bytes) (kid : String)
        (parseJson : Bytes → Option Json) (headers : Headers) (raw : Bytes)
        (now_ms : Nat) (ts : String) (s : Storage) (r : Json) (s' : Storage),
      Inv s → envelope signP priv kid parseJson headers raw now_ms ts s = .ok (r, s') →
      Inv s') ∧
    (∀ s : Storage, Reachable s → Inv s) := by
  constructor
  · intro signP priv kid parseJson headers raw now_ms ts s r s' hInv hrun
    exact envelope_preserves_Inv hInv hrun
  · intro s hr
    induction hr with
    | empty =>
        intro tid v hs hv _ _ _
        exact absurd hv (by simp [InMemoryStorage.empty])
    | step signP priv kid parseJson headers raw now_ms ts r hprev hrun ih =>
        exact envelope_preserves_Inv ih hrun

/-- Witness for C5 at the fresh store. -/
theorem receipt_index_integrity_witness : Inv InMemoryStorage.empty :=
  receipt_index_integrity.2 InMemoryStorage.empty Reachable.empty

/-- Claim C6: the policy size check admits a body of exactly the configured
maximum (65536 bytes by default) and rejects maximum+1 with HTTP 413 and an
oversize reason; the admitted body is passed through whole, never
truncated. -/
theorem policy_size_boundary :
    check_payload_size MAX_PAYLOAD_BYTES = (true, "ok") ∧
    check_payload_size (MAX_PAYLOAD_BYTES + 1) = (false, "payload too large: 65537 > 65536") ∧
    (∀ size, size ≤ MAX_PAYLOAD_BYTES → check_payload_size size = (true, "ok")) ∧
    (∀ size, MAX_PAYLOAD_BYTES < size → check_payload_size size =
      (false, "payload too large: " ++ toString size ++ " > " ++ toString MAX_PAYLOAD_BYTES)) ∧
    (∀ (headers : Headers) (raw : Bytes), raw.length = MAX_BODY →
      enforce_hel "/echo" headers raw = .ok ()) ∧
    (∀ (headers : Headers) (raw : Bytes), raw.length = MAX_BODY + 1 →
      enforce_hel "/echo" headers raw = .error ⟨413, "payload too large"⟩) ∧
    (∀ (headers : Headers) (raw : Bytes), raw.length ≤ MAX_BODY →
      echo true headers raw = .ok (.octets raw)) := by
  refine ⟨rfl, rfl, ?_, ?_, ?_, ?_, ?_⟩
  · intro size hle
    simp [check_payload_size, hle]
  · intro size hgt
    rw [check_payload_size, if_neg (by omega)]
  · intro headers raw hlen
    simp [enforce_hel, sizeGate, MAX_BODY, hlen]
  · intro headers raw hlen
    simp [enforce_hel, sizeGate, MAX_BODY, hlen]
  · intro headers raw hlen
    have hnl : ¬ (65536 < raw.length) := by
      simp only [MAX_BODY] at hlen
      omega
    simp [echo, enforce_hel, sizeGate, MAX_BODY, hnl]

/-- Witness for C6 at concrete sizes. -/
theorem policy_size_boundary_witness :
    check_payload_size 65536 = (true, "ok") ∧
    enforce_hel "/echo" toyHeaders (List.replicate 65537 120) =
      .error ⟨413, "payload too large"⟩ ∧
    echo true toyHeaders [120] = .ok (.octets [120]) := by
  refine ⟨policy_size_boundary.2.2.1 65536 (by decide),
    policy_size_boundary.2.2.2.2.2.1 toyHeaders _
      (by rw [List.length_replicate, MAX_BODY]),
    policy_size_boundary.2.2.2.2.2.2 toyHeaders [120] (by decide)⟩

/-- Claim C7: on every path except `/echo` the policy gate rejects with a
400 naming the first absent required header (`X-ODIN-Trace-Id`, then
`X-ODIN-Payload-CID`), and passes the header check when both are present;
`/echo` enforces only the size check.  The standalone
`check_required_headers` reports the same outcomes. -/
theorem policy_required_headers :
    (∀ (path : String) (headers : Headers) (raw : Bytes), path ≠ "/echo" →
      headers "X-ODIN-Trace-Id" = none →
      enforce_hel path headers raw = .error ⟨400, "missing header X-ODIN-Trace-Id"⟩) ∧
    (∀ (path : String) (headers : Headers) (raw : Bytes) (t : String), path ≠ "/echo" →
      headers "X-ODIN-Trace-Id" = some t → headers "X-ODIN-Payload-CID" = none →
      enforce_hel path headers raw = .error ⟨400, "missing header X-ODIN-Payload-CID"⟩) ∧
    (∀ (path : String) (headers : Headers) (raw : Bytes) (t c : String),
      headers "X-ODIN-Trace-Id" = some t → headers "X-ODIN-Payload-CID" = some c →
      enforce_hel path headers raw = sizeGate raw) ∧
    (∀ (headers : Headers) (raw : Bytes), enforce_hel "/echo" headers raw = sizeGate raw) ∧
    (∀ headers : Headers, headers "X-ODIN-Trace-Id" = none →
      check_required_headers headers = (false, "missing required header: X-ODIN-Trace-Id")) ∧
    (∀ (headers : Headers) (t : String), headers "X-ODIN-Trace-Id" = some t →
      headers "X-ODIN-Payload-CID" = none →
      check_required_headers headers = (false, "missing required header: X-ODIN-Payload-CID")) ∧
    (∀ (headers : Headers) (t c : String), headers "X-ODIN-Trace-Id" = some t →
      headers "X-ODIN-Payload-CID" = some c →
      check_required_headers headers = (true, "ok")) := by
  refine ⟨?_, ?_, ?_, ?_, ?_, ?_, ?_⟩
  · intro path headers raw hpath h1
    simp [enforce_hel, headerGate, hpath, h1]
  · intro path headers raw t hpath h1 h2
    simp [enforce_hel, headerGate, hpath, h1, h2]
  · intro path headers raw t c h1 h2
    by_cases hpath : path = "/echo" <;> simp [enforce_hel, headerGate, hpath, h1, h2]
  · intro headers raw
    simp [enforce_hel]
  · intro headers h1
    simp [check_required_headers, requiredHeadersLoop, REQUIRED_HEADERS, h1]
  · intro headers t h1 h2
    simp [check_required_headers, requiredHeadersLoop, REQUIRED_HEADERS, h1, h2]
  · intro headers t c h1 h2
    simp [check_required_headers, requiredHeadersLoop, REQUIRED_HEADERS, h1, h2]

/-- Witness for C7 at a concrete header map. -/
theorem policy_required_headers_witness :
    enforce_hel "/v1/envelope" (fun _ => none) [] =
      .error ⟨400, "missing header X-ODIN-Trace-Id"⟩ ∧
    enforce_hel "/v1/envelope" toyHeaders [] = sizeGate [] ∧
    check_required_headers toyHeaders = (true, "ok") := by
  refine ⟨policy_required_headers.1 "/v1/envelope" (fun _ => none) [] (by decide) rfl,
    policy_required_headers.2.2.1 "/v1/envelope" toyHeaders [] "t1" "sha256:abc" rfl rfl,
    policy_required_headers.2.2.2.2.2.2 toyHeaders "t1" "sha256:abc" rfl rfl⟩

/-- Claim C8: `cid_v0` is `"sha256:"` followed by the unpadded URL-safe
base64 encoding of the SHA-256 digest of exactly the payload bytes (the
stripped-padding encoder provably equals the direct unpadded encoder), and
it is deterministic. -/
theorem cid_v0_format :
    ∀ data : Bytes,
      cid_v0 data = "sha256:" ++ String.mk (b64urlSpecChars (sha256 data)) ∧
      cid_v0 data = cid_v0 data := by
  intro data
  constructor
  · unfold cid_v0
    rw [b64url_no_pad_spec]
  · rfl

/-- Witness for C8 at a concrete payload. -/
theorem cid_v0_format_witness :
    cid_v0 (utf8Bytes "abc") =
      "sha256:" ++ String.mk (b64urlSpecChars (sha256 (utf8Bytes "abc"))) :=
  (cid_v0_format (utf8Bytes "abc")).1

/-- Claim C9 (code bug evaluation): the hop id is the last six characters of
the decimal millisecond clock, so hop ids are neither unique nor strictly
increasing in emission order: the clock values 1699999999999 and
1700000000000 (consecutive milliseconds) yield hop ids `999999` then
`000000`, a strict decrease, and clock values a million milliseconds apart
yield the same hop id `000123`; the handler returns receipts carrying
exactly these hop ids. -/
theorem hop_id_not_monotonic :
    hopId 1699999999999 = "999999" ∧
    hopId 1700000000000 = "000000" ∧
    decVal (hopId 1700000000000) < decVal (hopId 1699999999999) ∧
    hopId 1700000000123 = "000123" ∧
    hopId 1700001000123 = "000123" ∧
    ((receiptOf (envelope toySign toyPriv "test-kid" toyParse toyHeaders [] 1699999999999
        "2026-10-12T00:00:00Z" InMemoryStorage.empty)).bind
      (fun r => jField r "hop_id") = some (Json.str "999999")) ∧
    ((receiptOf (envelope toySign toyPriv "test-kid" toyParse toyHeaders [] 1700000000000
        "2026-10-12T00:00:01Z" InMemoryStorage.empty)).bind
      (fun r => jField r "hop_id") = some (Json.str "000000")) :=
  ⟨rfl, rfl, by decide, rfl, rfl, rfl, rfl⟩

/-- Claim C10: the in-memory storage returns exactly what was put, reports
existence accordingly, raises `FileNotFoundError` precisely for keys never
stored, and a put leaves every other key unchanged. -/
theorem in_memory_storage_contract :
    ∀ (α : Type) (s : InMemoryStorage α) (k q : String) (b : α)
      (ops : List (String × α)),
      existsKey (put_bytes s k b) k = true ∧
      get_bytes (put_bytes s k b) k = .ok b ∧
      ((∃ e, get_bytes s k = .error e) ↔ s k = none) ∧
      (q ≠ k → put_bytes s k b q = s q) ∧
      ((∃ e, get_bytes (applyPuts ops) k = .error e) ↔ k ∉ ops.map Prod.fst) := by
  intro α s k q b ops
  refine ⟨?_, ?_, get_bytes_error_iff s k, fun h => put_bytes_other s k q b h, ?_⟩
  · simp [existsKey, put_bytes_self]
  · simp [get_bytes, put_bytes_self]
  · rw [get_bytes_error_iff]
    unfold applyPuts
    rw [foldl_puts_none]
    simp [InMemoryStorage.empty]

/-- Witness for C10 at concrete keys and bytes. -/
theorem in_memory_storage_contract_witness :
    get_bytes (put_bytes (InMemoryStorage.empty : InMemoryStorage Bytes)
      "receipts/c1" [104, 105]) "receipts/c1" = .ok [104, 105] ∧
    put_bytes (InMemoryStorage.empty : InMemoryStorage Bytes)
      "receipts/c1" [104, 105] "missing" = InMemoryStorage.empty "missing" := by
  have h := in_memory_storage_contract Bytes InMemoryStorage.empty
    "receipts/c1" "missing" [104, 105] []
  exact ⟨h.2.1, h.2.2.2.1 (by decide)⟩

/-! ## Test vectors validating the SHA-256 and base64url embedding -/

set_option maxRecDepth 100000 in
/-- The embedded pipeline reproduces the SHA-256 digest of the empty string. -/
theorem cid_v0_vector_empty :
    cid_v0 [] = "sha256:47DEQpj8HBSa-_TImW-5JCeuQeRkm5NMpJWZG3hSuFU" := by decide

set_option maxRecDepth 100000 in
/-- The embedded pipeline reproduces the SHA-256 digest of `"abc"`. -/
theorem cid_v0_vector_abc :
    cid_v0 (utf8Bytes "abc") = "sha256:ungWv48Bz-pBQUDeXa4iI7ADYaOWF3qctBD_YfIAFa0" := by
  decide

end Odin
